import Mathlib

/-!
Verification of the statistical agreement engine of forge-e2e-r.

Shallow embedding conventions:
* Rust `f64` scalars that flow through pure arithmetic and comparisons are
  modelled as exact rationals (`ℚ`); every finite `f64` is a rational, and the
  idealisation replaces rounded IEEE operations by exact field operations.
* The Kolmogorov p-value (`ks_pvalue` in `src/stats.rs`) uses `sqrt` and `exp`,
  so it is modelled over the reals (`ℝ`) with `Real.sqrt` and `Real.exp`.
* `f64::EPSILON` is the exact rational `2 ^ (-52)`.
* Rust `HashMap<String, f64>` is modelled as an association list queried with
  `List.lookup`; only point lookups are performed by the modelled code.
* Formatted diagnostic message strings built with `format!` interpolation of
  floating point numbers are abstracted to structured data (the values that
  would be printed); plain message strings are kept verbatim, except that
  single quotation marks around parameter names are elided.
* Subprocess and filesystem effects of the orchestrator are modelled by an
  explicit environment record holding the outcome of each external step.
-/

/-- The model of `f64::EPSILON`, the exact rational 2 to the power -52. -/
def epsF64 : ℚ := 1 / 2 ^ 52

/-- Model of `struct Tolerance` from `src/stats.rs`. -/
structure Tolerance where
  mean : ℚ
  std : ℚ
  percentiles : ℚ
  ks_pvalue : ℚ
  ci_bounds : ℚ
deriving DecidableEq

/-- Model of `impl Default for Tolerance` from `src/stats.rs`. -/
def Tolerance.default : Tolerance :=
  { mean := 0.01
    std := 0.05
    percentiles := 0.02
    ks_pvalue := 0.05
    ci_bounds := 0.02 }

/-- Model of `Tolerance::deterministic` from `src/stats.rs`. -/
def Tolerance.deterministic : Tolerance :=
  { mean := 0.001
    std := 0.001
    percentiles := 0.001
    ks_pvalue := 0.05
    ci_bounds := 0.001 }

/-- Model of `Tolerance::stochastic` from `src/stats.rs`. -/
def Tolerance.stochastic : Tolerance := Tolerance.default

/-- Model of `within_tolerance` from `src/stats.rs`. -/
def within_tolerance (actual expected tolerance : ℚ) : Bool :=
  if |expected| < epsF64 then
    decide (|actual| ≤ tolerance)
  else
    decide (|actual - expected| / |expected| ≤ tolerance)

/-- Model of `relative_difference` from `src/stats.rs`. -/
def relative_difference (actual expected : ℚ) : ℚ :=
  if |expected| < epsF64 then |actual|
  else |actual - expected| / |expected|

/-- Model of the three `while` loops of `ks_statistic` from `src/stats.rs`.
The lists are the unconsumed suffixes of the two sorted samples, `i` and `j`
are the numbers of elements consumed so far, and the fuel argument bounds the
remaining iterations (the source loops run at most `len1 + len2` times, so a
call with that much fuel never hits the fuel-exhaustion branch). -/
def ksWalk (n1 n2 : ℚ) : ℕ → List ℚ → List ℚ → ℕ → ℕ → ℚ → ℚ
  | 0, _, _, _, _, maxD => maxD
  | fuel + 1, x :: xs, y :: ys, i, j, maxD =>
    if x ≤ y then
      ksWalk n1 n2 fuel xs (y :: ys) (i + 1) j
        (max maxD |((i : ℚ) + 1) / n1 - (j : ℚ) / n2|)
    else
      ksWalk n1 n2 fuel (x :: xs) ys i (j + 1)
        (max maxD |(i : ℚ) / n1 - ((j : ℚ) + 1) / n2|)
  | fuel + 1, _ :: xs, [], i, j, maxD =>
    ksWalk n1 n2 fuel xs [] (i + 1) j
      (max maxD |((i : ℚ) + 1) / n1 - 1|)
  | fuel + 1, [], _ :: ys, i, j, maxD =>
    ksWalk n1 n2 fuel [] ys i (j + 1)
      (max maxD |1 - ((j : ℚ) + 1) / n2|)
  | _ + 1, [], [], _, _, maxD => maxD

/-- Model of `ks_statistic` from `src/stats.rs`: sort both samples, then run
the merge walk tracking the maximum absolute empirical CDF gap. -/
def ks_statistic (sample1 sample2 : List ℚ) : ℚ :=
  if sample1.isEmpty || sample2.isEmpty then 1
  else
    let sorted1 := sample1.insertionSort (· ≤ ·)
    let sorted2 := sample2.insertionSort (· ≤ ·)
    ksWalk (sorted1.length : ℚ) (sorted2.length : ℚ)
      (sorted1.length + sorted2.length) sorted1 sorted2 0 0 0

/-- Structured content of the `Fail` diagnostic messages built with `format!`
in `compare_forge_r_results` from `src/main.rs`: the statistic that mismatched
and the two values that would be printed. -/
inductive FailReason where
  | meanMismatch (forgeVal rVal : ℚ)
  | stdMismatch (forgeVal rVal : ℚ)
  | pctMismatch (pct : String) (forgeVal rVal : ℚ)
deriving DecidableEq

/-- Model of `enum TestResult` from `src/types.rs`.  The `pass` payload keeps
the mean and std that the `details` message would print; `fail` keeps the
structured mismatch data; `skip` and the third constructor keep their message
strings verbatim. -/
inductive TestResult where
  | pass (name : String) (mean std : ℚ)
  | fail (name : String) (reason : FailReason)
  | error (name : String) (msg : String)
  | skip (name : String) (reason : String)
deriving DecidableEq

/-- Model of `struct ForgeStats` from `src/main.rs` (parsed statistics from
either forge or R); the percentile map is an association list. -/
structure ForgeStats where
  mean : ℚ
  std : ℚ
  percentiles : List (String × ℚ)
deriving DecidableEq

/-- The per-percentile failure test of `compare_forge_r_results` from
`src/main.rs`: the relative difference (with the zero guard on the reference
value) exceeds the effective tolerance AND the absolute difference exceeds the
absolute tolerance. -/
def pctFailCond (effTol absTol forgeVal rVal : ℚ) : Bool :=
  let absDiff := |forgeVal - rVal|
  let relDiff := if epsF64 < |rVal| then absDiff / |rVal| else absDiff
  decide (effTol < relDiff) && decide (absTol < absDiff)

/-- Model of the `for pct in ["5", "50", "95"]` loop of
`compare_forge_r_results` from `src/main.rs`: returns the `Fail` result of the
first percentile present on both sides that fails both the relative and the
absolute check, and `none` when no checked percentile fails. -/
def comparePercentiles (name : String) (forge r : ForgeStats)
    (effTol absTol : ℚ) : List String → Option TestResult
  | [] => none
  | pct :: rest =>
    match forge.percentiles.lookup pct, r.percentiles.lookup pct with
    | some forgeVal, some rVal =>
      if pctFailCond effTol absTol forgeVal rVal then
        some (.fail name (.pctMismatch pct forgeVal rVal))
      else comparePercentiles name forge r effTol absTol rest
    | _, _ => comparePercentiles name forge r effTol absTol rest

/-- The percentile keys checked by `compare_forge_r_results` in `src/main.rs`. -/
def pctKeys : List String := ["5", "50", "95"]

/-- Model of `compare_forge_r_results` from `src/main.rs`: mean, then std,
then the three key percentiles; the first mismatch short-circuits to `Fail`. -/
def compare_forge_r_results (testName : String) (forge r : ForgeStats)
    (tolerance : Tolerance) : TestResult :=
  if !within_tolerance forge.mean r.mean tolerance.mean then
    .fail testName (.meanMismatch forge.mean r.mean)
  else if !within_tolerance forge.std r.std tolerance.std then
    .fail testName (.stdMismatch forge.std r.std)
  else
    let effTol := max tolerance.percentiles 0.10
    let absTol := r.std * 0.5
    match comparePercentiles testName forge r effTol absTol pctKeys with
    | some res => res
    | none => .pass testName forge.mean forge.std

/-- Model of the value payload of the formula strings produced by
`build_mc_formula` in `src/main.rs` (the `=MC.*(...)` strings are abstracted
to the distribution constructor and the numeric arguments that would be
interpolated; the lognormal arguments are the real-valued moments computed by
the source before formatting). -/
inductive McFormula where
  | normal (mean sd : ℚ)
  | uniform (lo hi : ℚ)
  | lognormal (mean stdev : ℝ)
  | triangular (lo mode hi : ℚ)
  | pert (lo mode hi : ℚ)

/-- Model of Rust `str::to_lowercase` as applied by `build_mc_formula` in
`src/main.rs`: per-character ASCII lowercasing.  This is exact for every
distribution name the match recognises (all ASCII); for non-ASCII input the
source may lowercase further characters, but both sides then fall through to
the same rejection branch. -/
def toLowerAscii (s : String) : String := ⟨s.data.map Char.toLower⟩

/-- Model of `build_mc_formula` from `src/main.rs`.  Parameter-name quotes in
the error messages are elided; everything else is verbatim.  The `exp_m1`
call of the source is written as `Real.exp x - 1`, its exact value. -/
noncomputable def build_mc_formula (distribution : String)
    (params : List (String × ℚ)) : Except String McFormula :=
  match toLowerAscii distribution with
  | "normal" =>
    match params.lookup ("mean"), params.lookup ("sd") with
    | none, _ => .error ("Missing mean param")
    | some _, none => .error ("Missing sd param")
    | some mean, some sd => .ok (.normal mean sd)
  | "uniform" =>
    match params.lookup ("min"), params.lookup ("max") with
    | none, _ => .error ("Missing min param")
    | some _, none => .error ("Missing max param")
    | some lo, some hi => .ok (.uniform lo hi)
  | "lognormal" =>
    match params.lookup ("meanlog"), params.lookup ("sdlog") with
    | none, _ => .error ("Missing meanlog param")
    | some _, none => .error ("Missing sdlog param")
    | some meanlog, some sdlog =>
      .ok (.lognormal (Real.exp (meanlog + sdlog * sdlog / 2))
        (Real.sqrt ((Real.exp ((sdlog : ℝ) * sdlog) - 1) *
          Real.exp (2 * meanlog + sdlog * sdlog))))
  | "triangular" =>
    match params.lookup ("min"), params.lookup ("mode"), params.lookup ("max") with
    | none, _, _ => .error ("Missing min param")
    | some _, none, _ => .error ("Missing mode param")
    | some _, some _, none => .error ("Missing max param")
    | some lo, some mode, some hi => .ok (.triangular lo mode hi)
  | "pert" =>
    match params.lookup ("min"), params.lookup ("mode"), params.lookup ("max") with
    | none, _, _ => .error ("Missing min param")
    | some _, none, _ => .error ("Missing mode param")
    | some _, some _, none => .error ("Missing max param")
    | some lo, some mode, some hi => .ok (.pert lo mode hi)
  | "exponential" => .error ("Exponential distribution not supported by forge")
  | other => .error ("Unsupported distribution: " ++ other)

/-- Model of `struct ToleranceSpec` from `src/types.rs` (per-case YAML
tolerance override with optional fields). -/
structure ToleranceSpec where
  mean : Option ℚ
  std : Option ℚ
  percentiles : Option ℚ
deriving DecidableEq

/-- Model of `struct AnalyticsTestSpec` from `src/types.rs`.  The unused
`r_expected` hints field is omitted: `run_monte_carlo_test` never reads it. -/
structure AnalyticsTestSpec where
  name : String
  distribution : Option String
  params : List (String × ℚ)
  seed : ℕ
  iterations : ℕ
  r_validator : Option String
  tolerance : Option ToleranceSpec

/-- Model of the JSON payload navigated by `parse_r_results` in
`src/main.rs`: the fields of the R `results` object that the parser reads. -/
structure RJson where
  mean : Option ℚ
  std : Option ℚ
  sd : Option ℚ
  percentiles : List (String × ℚ)

/-- Model of `struct RResult` from `src/r_validator.rs` restricted to the
fields `run_monte_carlo_test` reads (`success`, `results`, `error`). -/
structure RValidationResult where
  success : Bool
  results : Option RJson
  rError : Option String

/-- Model of `parse_r_results` from `src/main.rs`: requires `mean` and
`std` (falling back to `sd`), and collects whatever percentiles are given. -/
def parse_r_results (results : Option RJson) : Option ForgeStats := do
  let r ← results
  let mean ← r.mean
  let std ← r.std.orElse fun _ => r.sd
  pure { mean := mean, std := std, percentiles := r.percentiles }

/-- Outcomes of the external effects performed by `run_monte_carlo_test` in
`src/main.rs`, in program order: creating the temp fixture file, writing it,
running `forge simulate` (parsed into stats), and running the R validator.
Universally quantifying a theorem over this record states that the property
holds whatever the external collaborators do. -/
structure OrchEnv where
  mkTemp : Except String Unit
  writeTemp : Except String Unit
  forgeRun : Except String ForgeStats
  rRun : Except String RValidationResult

/-- Model of `run_monte_carlo_test` from `src/main.rs`.  The YAML fixture
text built from the formula is consumed only by the external forge run, so it
is not materialised; every external outcome is drawn from the environment. -/
noncomputable def run_monte_carlo_test (test : AnalyticsTestSpec)
    (env : OrchEnv) : TestResult :=
  match test.distribution with
  | none => .skip test.name ("No distribution specified (not a Monte Carlo test)")
  | some distribution =>
    match build_mc_formula distribution test.params with
    | .error e => .skip test.name ("Cannot build formula: " ++ e)
    | .ok _mcFormula =>
      match env.mkTemp with
      | .error e => .error test.name ("Failed to create temp file: " ++ e)
      | .ok _ =>
        match env.writeTemp with
        | .error e => .error test.name ("Failed to write temp file: " ++ e)
        | .ok _ =>
          match env.forgeRun with
          | .error e => .error test.name ("Forge failed: " ++ e)
          | .ok forgeStats =>
            match env.rRun with
            | .error e => .error test.name ("R validator failed: " ++ e)
            | .ok rResult =>
              if !rResult.success then
                .error test.name
                  ("R returned error: " ++ rResult.rError.getD ("Unknown"))
              else
                match parse_r_results rResult.results with
                | none => .error test.name ("Failed to parse R statistics")
                | some rStats =>
                  let tolerance :=
                    match test.tolerance with
                    | some t =>
                      { mean := t.mean.getD 0.01
                        std := t.std.getD 0.05
                        percentiles := t.percentiles.getD 0.02
                        ks_pvalue := Tolerance.default.ks_pvalue
                        ci_bounds := Tolerance.default.ci_bounds }
                    | none => Tolerance.default
                  compare_forge_r_results test.name forgeStats rStats tolerance

/-- Model of the `for k in 1..=100` summation loop of `ks_pvalue` from
`src/stats.rs`.  The first argument is `lambda_sq`, the fuel argument counts
the remaining iterations (100 at entry), `k` is the current index and `s` the
accumulated sum; the loop adds the term for odd `k`, subtracts it for even
`k`, and stops after the first term below `1e-10`. -/
noncomputable def ksSumAux (lambdaSq : ℝ) : ℕ → ℕ → ℝ → ℝ
  | 0, _, s => s
  | fuel + 1, k, s =>
    let term := Real.exp (-(2 * (k : ℝ) * (k : ℝ) * lambdaSq))
    let s' := if k % 2 = 1 then s + term else s - term
    if term < 1e-10 then s' else ksSumAux lambdaSq fuel (k + 1) s'

/-- Model of `ks_pvalue` from `src/stats.rs`: degenerate answers for
`d ≤ 0` and `d ≥ 1`, otherwise twice the truncated alternating Kolmogorov
series at `lambda = (sqrt n + 0.12 + 0.11 / sqrt n) * d`, clamped to `[0,1]`. -/
noncomputable def ks_pvalue (d : ℝ) (n1 n2 : ℕ) : ℝ :=
  if d ≤ 0 then 1
  else if 1 ≤ d then 0
  else
    let n := ((n1 : ℝ) * (n2 : ℝ)) / ((n1 : ℝ) + (n2 : ℝ))
    let sqrtN := Real.sqrt n
    let lambda := (sqrtN + 0.12 + 0.11 / sqrtN) * d
    min 1 (max 0 (2 * ksSumAux (lambda * lambda) 100 1 0))

/-- The set of series indices whose term has dropped below the `1e-10`
truncation threshold, for a given `lambda * lambda`. -/
def ksBadSet (lambdaSq : ℝ) : Set ℕ :=
  {k : ℕ | 1 ≤ k ∧ Real.exp (-(2 * (k : ℝ) * (k : ℝ) * lambdaSq)) < 1e-10}

/-- Modelled from the spec (section 4.2): the truncation point of the
alternating series, namely the first index whose term drops below `1e-10`,
capped at 100 terms. -/
noncomputable def ksSpecCutoff (lambdaSq : ℝ) : ℕ :=
  min 100 (sInf (ksBadSet lambdaSq))

/-- Modelled from the spec (section 4.2): the p-value as the clamped value of
twice the truncated alternating Kolmogorov series, with the degenerate answers
for `D ≤ 0` and `D ≥ 1`, at `lambda = (sqrt n + 0.12 + 0.11 / sqrt n) * D`
and effective sample size `n = n1 * n2 / (n1 + n2)`. -/
noncomputable def ks_pvalue_spec (d : ℝ) (n1 n2 : ℕ) : ℝ :=
  if d ≤ 0 then 1
  else if 1 ≤ d then 0
  else
    let n := ((n1 : ℝ) * (n2 : ℝ)) / ((n1 : ℝ) + (n2 : ℝ))
    let sqrtN := Real.sqrt n
    let lambda := (sqrtN + 0.12 + 0.11 / sqrtN) * d
    min 1 (max 0 (2 * ∑ k in Finset.Icc 1 (ksSpecCutoff (lambda * lambda)),
      (-1 : ℝ) ^ (k + 1) * Real.exp (-(2 * (k : ℝ) * (k : ℝ) * (lambda * lambda)))))

lemma one_sub_le_exp_neg (x : ℝ) : 1 - x ≤ Real.exp (-x) := by
  have h := Real.add_one_le_exp (-x)
  linarith

lemma exp_neg_le_one {x : ℝ} (hx : 0 ≤ x) : Real.exp (-x) ≤ 1 := by
  calc Real.exp (-x) ≤ Real.exp 0 := Real.exp_le_exp.mpr (by linarith)
  _ = 1 := Real.exp_zero

lemma exp_neg_sub_exp_neg_le {u v : ℝ} (hu : 0 ≤ u) (huv : u ≤ v) :
    Real.exp (-u) - Real.exp (-v) ≤ v - u := by
  have hfact : Real.exp (-v) = Real.exp (-u) * Real.exp (-(v - u)) := by
    rw [← Real.exp_add]; ring_nf
  have h1 : Real.exp (-u) - Real.exp (-v)
      = Real.exp (-u) * (1 - Real.exp (-(v - u))) := by
    rw [hfact]; ring
  rw [h1]
  have h2 : 1 - Real.exp (-(v - u)) ≤ v - u := by
    have := one_sub_le_exp_neg (v - u); linarith
  have h3 : 0 ≤ 1 - Real.exp (-(v - u)) := by
    have := exp_neg_le_one (x := v - u) (by linarith); linarith
  calc Real.exp (-u) * (1 - Real.exp (-(v - u)))
      ≤ 1 * (1 - Real.exp (-(v - u))) :=
        mul_le_mul_of_nonneg_right (exp_neg_le_one hu) h3
  _ = 1 - Real.exp (-(v - u)) := one_mul _
  _ ≤ v - u := h2

lemma ten_pow_ten_lt_exp_24 : (1e10 : ℝ) < Real.exp 24 := by
  have h1 : (2.7182818283 : ℝ) < Real.exp 1 := Real.exp_one_gt_d9
  have h2 : ((2.7182818283 : ℝ)) ^ (24 : ℕ) < (Real.exp 1) ^ (24 : ℕ) := by
    apply pow_lt_pow_left h1 (by norm_num)
    norm_num
  have h3 : (Real.exp 1) ^ (24 : ℕ) = Real.exp 24 := by
    rw [← Real.exp_nat_mul]; norm_num
  have h4 : (1e10 : ℝ) < ((2.7182818283 : ℝ)) ^ (24 : ℕ) := by norm_num
  linarith

lemma exp_19_lt_ten_pow_ten : Real.exp 19 < (1e10 : ℝ) := by
  have h1 : Real.exp 1 < (2.7182818286 : ℝ) := Real.exp_one_lt_d9
  have h2 : (Real.exp 1) ^ (19 : ℕ) < ((2.7182818286 : ℝ)) ^ (19 : ℕ) := by
    apply pow_lt_pow_left h1 (Real.exp_pos 1).le
    norm_num
  have h3 : (Real.exp 1) ^ (19 : ℕ) = Real.exp 19 := by
    rw [← Real.exp_nat_mul]; norm_num
  have h4 : ((2.7182818286 : ℝ)) ^ (19 : ℕ) < (1e10 : ℝ) := by norm_num
  linarith

lemma twenty_lt_exp_3 : (20.085 : ℝ) < Real.exp 3 := by
  have h1 : (2.7182818283 : ℝ) < Real.exp 1 := Real.exp_one_gt_d9
  have h2 : ((2.7182818283 : ℝ)) ^ (3 : ℕ) < (Real.exp 1) ^ (3 : ℕ) := by
    apply pow_lt_pow_left h1 (by norm_num)
    norm_num
  have h3 : (Real.exp 1) ^ (3 : ℕ) = Real.exp 3 := by
    rw [← Real.exp_nat_mul]; norm_num
  have h4 : (20.085 : ℝ) < ((2.7182818283 : ℝ)) ^ (3 : ℕ) := by norm_num
  linarith

lemma sign_step (k : ℕ) (s t : ℝ) :
    (if k % 2 = 1 then s + t else s - t) = s + (-1 : ℝ) ^ (k + 1) * t := by
  rcases Nat.even_or_odd k with he | ho
  · have h1 : ¬ k % 2 = 1 := by
      rw [Nat.even_iff] at he; omega
    have h2 : Odd (k + 1) := Even.add_one he
    rw [if_neg h1, h2.neg_one_pow]
    ring
  · have h1 : k % 2 = 1 := Nat.odd_iff.mp ho
    have h2 : Even (k + 1) := Odd.add_one ho
    rw [if_pos h1, h2.neg_one_pow]
    ring

lemma ksTerm_anti {lambdaSq : ℝ} (h : 0 ≤ lambdaSq) {k m : ℕ} (hkm : k ≤ m) :
    Real.exp (-(2 * (m : ℝ) * (m : ℝ) * lambdaSq))
      ≤ Real.exp (-(2 * (k : ℝ) * (k : ℝ) * lambdaSq)) := by
  apply Real.exp_le_exp.mpr
  have hk : (k : ℝ) ≤ (m : ℝ) := Nat.cast_le.mpr hkm
  have hk0 : (0 : ℝ) ≤ (k : ℝ) := Nat.cast_nonneg k
  have hsq : (k : ℝ) * (k : ℝ) ≤ (m : ℝ) * (m : ℝ) :=
    mul_le_mul hk hk hk0 (le_trans hk0 hk)
  have hmul : (k : ℝ) * (k : ℝ) * lambdaSq ≤ (m : ℝ) * (m : ℝ) * lambdaSq :=
    mul_le_mul_of_nonneg_right hsq h
  linarith

lemma ksBadSet_nonempty {lambdaSq : ℝ} (h : 0 < lambdaSq) :
    (ksBadSet lambdaSq).Nonempty := by
  obtain ⟨K, hK⟩ := exists_nat_gt (max 1 (12 / lambdaSq))
  refine ⟨K, ?_, ?_⟩
  · have : (1 : ℝ) ≤ (K : ℝ) := le_of_lt (lt_of_le_of_lt (le_max_left _ _) hK)
    exact_mod_cast this
  · have hK1 : (1 : ℝ) ≤ (K : ℝ) := le_of_lt (lt_of_le_of_lt (le_max_left _ _) hK)
    have hK2 : 12 / lambdaSq < (K : ℝ) := lt_of_le_of_lt (le_max_right _ _) hK
    have hKsq : 12 / lambdaSq ≤ (K : ℝ) * (K : ℝ) := by nlinarith
    have h24 : (24 : ℝ) ≤ 2 * (K : ℝ) * (K : ℝ) * lambdaSq := by
      have h12 : (12 : ℝ) ≤ (K : ℝ) * (K : ℝ) * lambdaSq := by
        have := (div_le_iff h).mp hKsq
        linarith
      linarith
    have hle : Real.exp (-(2 * (K : ℝ) * (K : ℝ) * lambdaSq)) ≤ Real.exp (-24) := by
      apply Real.exp_le_exp.mpr; linarith
    have hlt : Real.exp (-(24 : ℝ)) < 1e-10 := by
      rw [Real.exp_neg]
      rw [show (1e-10 : ℝ) = (1e10)⁻¹ by norm_num]
      exact inv_lt_inv_of_lt (by norm_num) ten_pow_ten_lt_exp_24
    exact lt_of_le_of_lt hle hlt

lemma ksBadSet_sInf_ge_one {lambdaSq : ℝ} (h : 0 < lambdaSq) :
    1 ≤ sInf (ksBadSet lambdaSq) :=
  (Nat.sInf_mem (ksBadSet_nonempty h)).1

lemma sum_Icc_split_bot {k E : ℕ} (h : k ≤ E) (g : ℕ → ℝ) :
    ∑ m in Finset.Icc k E, g m = g k + ∑ m in Finset.Icc (k + 1) E, g m := by
  rw [Finset.Icc_eq_cons_Ioc h, Finset.sum_cons, ← Nat.Icc_succ_left]

lemma ksSumAux_eq_sum {lambdaSq : ℝ} (h : 0 < lambdaSq) :
    ∀ fuel k s, 1 ≤ k → k ≤ sInf (ksBadSet lambdaSq) →
      ksSumAux lambdaSq fuel k s
        = s + ∑ m in Finset.Icc k (min (k + fuel - 1) (sInf (ksBadSet lambdaSq))),
            (-1 : ℝ) ^ (m + 1) * Real.exp (-(2 * (m : ℝ) * (m : ℝ) * lambdaSq)) := by
  intro fuel
  induction fuel with
  | zero =>
    intro k s hk1 hkM
    have hmin : min (k + 0 - 1) (sInf (ksBadSet lambdaSq)) = k - 1 := by
      apply min_eq_left; omega
    rw [ksSumAux, hmin, Finset.Icc_eq_empty (by omega), Finset.sum_empty, add_zero]
  | succ fuel ih =>
    intro k s hk1 hkM
    rcases eq_or_lt_of_le hkM with hkeq | hklt
    · have hbad : Real.exp (-(2 * (k : ℝ) * (k : ℝ) * lambdaSq)) < 1e-10 := by
        have hmem := Nat.sInf_mem (ksBadSet_nonempty h)
        rw [← hkeq] at hmem
        exact hmem.2
      have hmin : min (k + (fuel + 1) - 1) (sInf (ksBadSet lambdaSq)) = k := by
        rw [← hkeq]; apply min_eq_right; omega
      rw [ksSumAux]
      simp only [if_pos hbad]
      rw [sign_step, hmin, Finset.Icc_self, Finset.sum_singleton]
    · have hgood : ¬ Real.exp (-(2 * (k : ℝ) * (k : ℝ) * lambdaSq)) < 1e-10 := by
        intro hcon
        have hmem : k ∈ ksBadSet lambdaSq := ⟨hk1, hcon⟩
        exact absurd (Nat.sInf_le hmem) (by omega)
      rw [ksSumAux]
      simp only [if_neg hgood]
      rw [sign_step, ih (k + 1) _ (by omega) (by omega)]
      have harg : k + 1 + fuel - 1 = k + (fuel + 1) - 1 := by omega
      rw [harg]
      set E := min (k + (fuel + 1) - 1) (sInf (ksBadSet lambdaSq)) with hE
      have hkE : k ≤ E := by
        apply le_min (by omega) (by omega)
      rw [sum_Icc_split_bot hkE]
      ring

lemma effective_n_pos {n1 n2 : ℕ} (h1 : 1 ≤ n1) (h2 : 1 ≤ n2) :
    (0 : ℝ) < ((n1 : ℝ) * (n2 : ℝ)) / ((n1 : ℝ) + (n2 : ℝ)) := by
  have hn1 : (1 : ℝ) ≤ (n1 : ℝ) := by exact_mod_cast h1
  have hn2 : (1 : ℝ) ≤ (n2 : ℝ) := by exact_mod_cast h2
  apply div_pos (by nlinarith) (by linarith)

lemma ksSumAux_run {lambdaSq : ℝ} (h : 0 < lambdaSq) :
    ksSumAux lambdaSq 100 1 0
      = ∑ m in Finset.Icc 1 (ksSpecCutoff lambdaSq),
          (-1 : ℝ) ^ (m + 1) * Real.exp (-(2 * (m : ℝ) * (m : ℝ) * lambdaSq)) := by
  have h1 := ksSumAux_eq_sum h 100 1 0 le_rfl (ksBadSet_sInf_ge_one h)
  rw [h1, zero_add]
  rfl

/-- Claim C3: for `n1, n2 ≥ 1`, `ks_pvalue` equals the value clamped to
`[0, 1]` of twice the alternating sum of `(-1)^(k+1) * exp(-2 k^2 lambda^2)`
with `lambda = (sqrt n + 0.12 + 0.11 / sqrt n) * D` at effective sample size
`n = n1 * n2 / (n1 + n2)`, the series truncated at the first term below
`1e-10` or after 100 terms, and it returns exactly 1 when `D ≤ 0` and
exactly 0 when `D ≥ 1`. -/
theorem ks_pvalue_eq_spec (d : ℝ) (n1 n2 : ℕ) (h1 : 1 ≤ n1) (h2 : 1 ≤ n2) :
    ks_pvalue d n1 n2 = ks_pvalue_spec d n1 n2 := by
  unfold ks_pvalue ks_pvalue_spec
  split_ifs with h0 hone
  · rfl
  · rfl
  · dsimp only
    have hn : (0 : ℝ) < ((n1 : ℝ) * (n2 : ℝ)) / ((n1 : ℝ) + (n2 : ℝ)) :=
      effective_n_pos h1 h2
    have hs : 0 < Real.sqrt (((n1 : ℝ) * (n2 : ℝ)) / ((n1 : ℝ) + (n2 : ℝ))) :=
      Real.sqrt_pos.mpr hn
    have hd : 0 < d := not_le.mp h0
    have hcoef : 0 < Real.sqrt (((n1 : ℝ) * (n2 : ℝ)) / ((n1 : ℝ) + (n2 : ℝ)))
        + 0.12 + 0.11 / Real.sqrt (((n1 : ℝ) * (n2 : ℝ)) / ((n1 : ℝ) + (n2 : ℝ))) := by
      positivity
    have hlam : 0 < (Real.sqrt (((n1 : ℝ) * (n2 : ℝ)) / ((n1 : ℝ) + (n2 : ℝ)))
        + 0.12 + 0.11 / Real.sqrt (((n1 : ℝ) * (n2 : ℝ)) / ((n1 : ℝ) + (n2 : ℝ)))) * d :=
      mul_pos hcoef hd
    have hlsq := mul_pos hlam hlam
    rw [ksSumAux_run hlsq]

/-- Witness for C3 at `D = 1/2`, `n1 = n2 = 2`. -/
theorem ks_pvalue_eq_spec_witness :
    ks_pvalue (1 / 2) 2 2 = ks_pvalue_spec (1 / 2) 2 2 :=
  ks_pvalue_eq_spec (1 / 2) 2 2 (by norm_num) (by norm_num)

lemma ks_pvalue_nonneg (d : ℝ) (n1 n2 : ℕ) : 0 ≤ ks_pvalue d n1 n2 := by
  unfold ks_pvalue
  split_ifs
  · norm_num
  · norm_num
  · dsimp only
    exact le_min (by norm_num) (le_max_left 0 _)

lemma ks_pvalue_le_one (d : ℝ) (n1 n2 : ℕ) : ks_pvalue d n1 n2 ≤ 1 := by
  unfold ks_pvalue
  split_ifs
  · norm_num
  · norm_num
  · dsimp only
    exact min_le_left 1 _

lemma exp_neg_24_lt : Real.exp (-(24 : ℝ)) < 1e-10 := by
  rw [Real.exp_neg, show (1e-10 : ℝ) = (1e10)⁻¹ by norm_num]
  exact inv_lt_inv_of_lt (by norm_num) ten_pow_ten_lt_exp_24

lemma exp_neg_19_ge : (1e-10 : ℝ) ≤ Real.exp (-(19 : ℝ)) := by
  rw [Real.exp_neg, show (1e-10 : ℝ) = (1e10)⁻¹ by norm_num]
  exact le_of_lt (inv_lt_inv_of_lt (Real.exp_pos 19) exp_19_lt_ten_pow_ten)

lemma exp_neg_one_ge : (0.3678 : ℝ) ≤ Real.exp (-(1 : ℝ)) := by
  rw [Real.exp_neg]
  have h1 : Real.exp 1 < 2.7182818286 := Real.exp_one_lt_d9
  have h2 : (2.7182818286 : ℝ)⁻¹ < (Real.exp 1)⁻¹ :=
    inv_lt_inv_of_lt (Real.exp_pos 1) h1
  have h3 : (0.3678 : ℝ) ≤ (2.7182818286 : ℝ)⁻¹ := by norm_num
  linarith

lemma exp_neg_3_le : Real.exp (-(3 : ℝ)) ≤ 0.0498 := by
  rw [Real.exp_neg]
  have h2 : (Real.exp 3)⁻¹ < (20.085 : ℝ)⁻¹ :=
    inv_lt_inv_of_lt (by norm_num) twenty_lt_exp_3
  have h3 : ((20.085 : ℝ))⁻¹ ≤ 0.0498 := by norm_num
  linarith

lemma alt_pair_bound (t : ℕ → ℝ) (C : ℝ) :
    ∀ N : ℕ, (∀ j, 1 ≤ j → j ≤ N → t (2 * j - 1) - t (2 * j) ≤ C) →
      ∑ m in Finset.Icc 1 (2 * N), (-1 : ℝ) ^ (m + 1) * t m ≤ (N : ℝ) * C := by
  intro N
  induction N with
  | zero => intro _; simp
  | succ N ih =>
    intro hp
    have h2 : 2 * (N + 1) = 2 * N + 1 + 1 := by ring
    rw [h2, Finset.sum_Icc_succ_top (by omega), Finset.sum_Icc_succ_top (by omega)]
    have hIH := ih fun j hj1 hjN => hp j hj1 (by omega)
    have hpair := hp (N + 1) (by omega) le_rfl
    have e1 : 2 * (N + 1) - 1 = 2 * N + 1 := by omega
    have e2 : 2 * (N + 1) = 2 * N + 1 + 1 := by omega
    rw [e1, e2] at hpair
    have s1 : (-1 : ℝ) ^ (2 * N + 1 + 1) = 1 := Even.neg_one_pow ⟨N + 1, by ring⟩
    have s2 : (-1 : ℝ) ^ (2 * N + 1 + 1 + 1) = -1 := Odd.neg_one_pow ⟨N + 1, by ring⟩
    rw [s1, s2]
    have hexp : ((N : ℕ) + 1 : ℝ) * C = (N : ℝ) * C + C := by ring
    push_cast
    rw [hexp]
    linarith

lemma ksSumAux_no_break_bound {lsq : ℝ} (hpos : 0 < lsq)
    (hsmall : lsq ≤ 16 / 10 ^ 7) :
    ksSumAux lsq 100 1 0 ≤ 19900 * lsq := by
  have hM : 101 ≤ sInf (ksBadSet lsq) := by
    apply le_csInf (ksBadSet_nonempty hpos)
    intro m hm
    obtain ⟨hm1, hmbad⟩ := hm
    by_contra hcon
    push_neg at hcon
    have hm100 : (m : ℝ) ≤ 100 := by exact_mod_cast (by omega : m ≤ 100)
    have hm0 : (0 : ℝ) ≤ (m : ℝ) := Nat.cast_nonneg m
    have hmm : 2 * ((m : ℝ) * (m : ℝ)) ≤ 20000 := by nlinarith
    have hx : 2 * (m : ℝ) * (m : ℝ) * lsq ≤ 32 / 10 ^ 3 := by
      calc 2 * (m : ℝ) * (m : ℝ) * lsq = 2 * ((m : ℝ) * (m : ℝ)) * lsq := by ring
      _ ≤ 20000 * lsq := mul_le_mul_of_nonneg_right hmm hpos.le
      _ ≤ 20000 * (16 / 10 ^ 7) := mul_le_mul_of_nonneg_left hsmall (by norm_num)
      _ = 32 / 10 ^ 3 := by norm_num
    have hterm : (1e-10 : ℝ) ≤ Real.exp (-(2 * (m : ℝ) * (m : ℝ) * lsq)) := by
      have h1 := one_sub_le_exp_neg (2 * (m : ℝ) * (m : ℝ) * lsq)
      have h2 : (1e-10 : ℝ) ≤ 1 - 32 / 10 ^ 3 := by norm_num
      linarith
    linarith
  have hrun := ksSumAux_eq_sum hpos 100 1 0 le_rfl (by omega)
  have hmin : min (1 + 100 - 1) (sInf (ksBadSet lsq)) = 2 * 50 := by
    rw [min_eq_left (by omega)]
  rw [hrun, hmin, zero_add]
  have hpairs : ∀ j : ℕ, 1 ≤ j → j ≤ 50 →
      (fun m : ℕ => Real.exp (-(2 * (m : ℝ) * (m : ℝ) * lsq))) (2 * j - 1)
        - (fun m : ℕ => Real.exp (-(2 * (m : ℝ) * (m : ℝ) * lsq))) (2 * j) ≤ 398 * lsq := by
    intro j hj1 hj50
    simp only []
    have h2j : (1 : ℕ) ≤ 2 * j := by omega
    have hcast : ((2 * j - 1 : ℕ) : ℝ) = 2 * (j : ℝ) - 1 := by
      rw [Nat.cast_sub h2j]
      push_cast
      ring
    have hj1R : (1 : ℝ) ≤ (j : ℝ) := by exact_mod_cast hj1
    have hj50R : (j : ℝ) ≤ 50 := by exact_mod_cast hj50
    have hu0 : (0 : ℝ) ≤ 2 * ((2 * j - 1 : ℕ) : ℝ) * ((2 * j - 1 : ℕ) : ℝ) * lsq := by
      rw [hcast]
      have hX : (0 : ℝ) ≤ 2 * (j : ℝ) - 1 := by linarith
      exact mul_nonneg (mul_nonneg (by linarith) hX) hpos.le
    have huv : 2 * ((2 * j - 1 : ℕ) : ℝ) * ((2 * j - 1 : ℕ) : ℝ) * lsq
        ≤ 2 * ((2 * j : ℕ) : ℝ) * ((2 * j : ℕ) : ℝ) * lsq := by
      rw [hcast]; push_cast; nlinarith
    have hdiff := exp_neg_sub_exp_neg_le hu0 huv
    have hgap : 2 * ((2 * j : ℕ) : ℝ) * ((2 * j : ℕ) : ℝ) * lsq
        - 2 * ((2 * j - 1 : ℕ) : ℝ) * ((2 * j - 1 : ℕ) : ℝ) * lsq ≤ 398 * lsq := by
      rw [hcast]
      push_cast
      have hfac : 2 * (2 * (j : ℝ)) * (2 * (j : ℝ)) * lsq
          - 2 * (2 * (j : ℝ) - 1) * (2 * (j : ℝ) - 1) * lsq
          = (8 * (j : ℝ) - 2) * lsq := by ring
      rw [hfac]
      apply mul_le_mul_of_nonneg_right _ hpos.le
      linarith
    linarith
  have hb := alt_pair_bound (fun m : ℕ => Real.exp (-(2 * (m : ℝ) * (m : ℝ) * lsq)))
    (398 * lsq) 50 hpairs
  simp only [] at hb
  have heq : ((50 : ℕ) : ℝ) * (398 * lsq) = 19900 * lsq := by push_cast; ring
  rw [heq] at hb
  exact hb

lemma ks_pvalue_two_two (d : ℝ) (h0 : ¬ d ≤ 0) (hone : ¬ (1 : ℝ) ≤ d) :
    ks_pvalue d 2 2
      = min 1 (max 0 (2 * ksSumAux ((123 / 100 * d) * (123 / 100 * d)) 100 1 0)) := by
  unfold ks_pvalue
  rw [if_neg h0, if_neg hone]
  dsimp only
  have h1 : ((2 : ℕ) : ℝ) * ((2 : ℕ) : ℝ) / (((2 : ℕ) : ℝ) + ((2 : ℕ) : ℝ)) = 1 := by
    norm_num
  rw [h1, Real.sqrt_one]
  norm_num

lemma sum_Icc_one_six (g : ℕ → ℝ) :
    ∑ m in Finset.Icc 1 6, g m = g 1 + g 2 + g 3 + g 4 + g 5 + g 6 := by
  have e6 : Finset.Icc (1 : ℕ) 6 = Finset.Icc 1 (5 + 1) := rfl
  have e5 : Finset.Icc (1 : ℕ) 5 = Finset.Icc 1 (4 + 1) := rfl
  have e4 : Finset.Icc (1 : ℕ) 4 = Finset.Icc 1 (3 + 1) := rfl
  have e3 : Finset.Icc (1 : ℕ) 3 = Finset.Icc 1 (2 + 1) := rfl
  have e2 : Finset.Icc (1 : ℕ) 2 = Finset.Icc 1 (1 + 1) := rfl
  rw [e6, Finset.sum_Icc_succ_top (by omega), e5, Finset.sum_Icc_succ_top (by omega),
    e4, Finset.sum_Icc_succ_top (by omega), e3, Finset.sum_Icc_succ_top (by omega),
    e2, Finset.sum_Icc_succ_top (by omega), Finset.Icc_self, Finset.sum_singleton]

lemma alt_six_lower (t : ℕ → ℝ) (h34 : t 4 ≤ t 3) (h56 : t 6 ≤ t 5) :
    t 1 - t 2 ≤ ∑ m in Finset.Icc 1 6, (-1 : ℝ) ^ (m + 1) * t m := by
  rw [sum_Icc_one_six (fun m => (-1 : ℝ) ^ (m + 1) * t m)]
  norm_num
  linarith

lemma ks_pvalue_milli_upper : ks_pvalue (1 / 1000) 2 2 ≤ 0.0603 := by
  rw [ks_pvalue_two_two (1 / 1000) (by norm_num) (by norm_num)]
  have hval : ((123 : ℝ) / 100 * (1 / 1000)) * (123 / 100 * (1 / 1000))
      = 15129 / 10 ^ 10 := by norm_num
  rw [hval]
  have hpos : (0 : ℝ) < 15129 / 10 ^ 10 := by norm_num
  have hsmall : (15129 : ℝ) / 10 ^ 10 ≤ 16 / 10 ^ 7 := by norm_num
  have hb := ksSumAux_no_break_bound hpos hsmall
  have h2 : 2 * ksSumAux ((15129 : ℝ) / 10 ^ 10) 100 1 0 ≤ 0.0603 := by
    have h3 : (19900 : ℝ) * (15129 / 10 ^ 10) ≤ 0.03015 := by norm_num
    linarith
  calc min 1 (max 0 (2 * ksSumAux ((15129 : ℝ) / 10 ^ 10) 100 1 0))
      ≤ max 0 (2 * ksSumAux ((15129 : ℝ) / 10 ^ 10) 100 1 0) := min_le_right _ _
  _ ≤ 0.0603 := max_le (by norm_num) h2

lemma ks_pvalue_half_lower : (0.636 : ℝ) ≤ ks_pvalue (1 / 2) 2 2 := by
  rw [ks_pvalue_two_two (1 / 2) (by norm_num) (by norm_num)]
  have hval : ((123 : ℝ) / 100 * (1 / 2)) * (123 / 100 * (1 / 2))
      = 15129 / 40000 := by norm_num
  rw [hval]
  have hpos : (0 : ℝ) < 15129 / 40000 := by norm_num
  have hbad6 : Real.exp (-(2 * ((6 : ℕ) : ℝ) * ((6 : ℕ) : ℝ) * (15129 / 40000))) < 1e-10 := by
    have harg : 2 * ((6 : ℕ) : ℝ) * ((6 : ℕ) : ℝ) * ((15129 : ℝ) / 40000)
        = 1089288 / 40000 := by norm_num
    rw [harg]
    have h1 : Real.exp (-(1089288 / 40000 : ℝ)) ≤ Real.exp (-(24 : ℝ)) :=
      Real.exp_le_exp.mpr (by norm_num)
    linarith [exp_neg_24_lt]
  have hterm5 : (1e-10 : ℝ)
      ≤ Real.exp (-(2 * ((5 : ℕ) : ℝ) * ((5 : ℕ) : ℝ) * (15129 / 40000))) := by
    have harg : 2 * ((5 : ℕ) : ℝ) * ((5 : ℕ) : ℝ) * ((15129 : ℝ) / 40000)
        = 756450 / 40000 := by norm_num
    rw [harg]
    have h1 : Real.exp (-(19 : ℝ)) ≤ Real.exp (-(756450 / 40000 : ℝ)) :=
      Real.exp_le_exp.mpr (by norm_num)
    linarith [exp_neg_19_ge]
  have hM : sInf (ksBadSet ((15129 : ℝ) / 40000)) = 6 := by
    apply le_antisymm
    · exact Nat.sInf_le ⟨by norm_num, hbad6⟩
    · apply le_csInf (ksBadSet_nonempty hpos)
      rintro m ⟨hm1, hmbad⟩
      by_contra hcon
      push_neg at hcon
      have hanti : Real.exp (-(2 * ((5 : ℕ) : ℝ) * ((5 : ℕ) : ℝ) * (15129 / 40000)))
          ≤ Real.exp (-(2 * (m : ℝ) * (m : ℝ) * (15129 / 40000))) :=
        ksTerm_anti hpos.le (by omega)
      linarith
  have hrun := ksSumAux_eq_sum hpos 100 1 0 le_rfl (by omega)
  have hmin : min (1 + 100 - 1) (sInf (ksBadSet ((15129 : ℝ) / 40000))) = 6 := by
    rw [hM, min_eq_right (by omega)]
  rw [hrun, hmin, zero_add]
  have h34 : Real.exp (-(2 * ((4 : ℕ) : ℝ) * ((4 : ℕ) : ℝ) * (15129 / 40000)))
      ≤ Real.exp (-(2 * ((3 : ℕ) : ℝ) * ((3 : ℕ) : ℝ) * (15129 / 40000))) :=
    ksTerm_anti hpos.le (by omega)
  have h56 : Real.exp (-(2 * ((6 : ℕ) : ℝ) * ((6 : ℕ) : ℝ) * (15129 / 40000)))
      ≤ Real.exp (-(2 * ((5 : ℕ) : ℝ) * ((5 : ℕ) : ℝ) * (15129 / 40000))) :=
    ksTerm_anti hpos.le (by omega)
  have hlow := alt_six_lower
    (fun m : ℕ => Real.exp (-(2 * (m : ℝ) * (m : ℝ) * (15129 / 40000)))) h34 h56
  simp only [] at hlow
  have ht1 : (0.3678 : ℝ)
      ≤ Real.exp (-(2 * ((1 : ℕ) : ℝ) * ((1 : ℕ) : ℝ) * (15129 / 40000))) := by
    have harg : 2 * ((1 : ℕ) : ℝ) * ((1 : ℕ) : ℝ) * ((15129 : ℝ) / 40000)
        = 30258 / 40000 := by norm_num
    rw [harg]
    have h1 : Real.exp (-(1 : ℝ)) ≤ Real.exp (-(30258 / 40000 : ℝ)) :=
      Real.exp_le_exp.mpr (by norm_num)
    linarith [exp_neg_one_ge]
  have ht2 : Real.exp (-(2 * ((2 : ℕ) : ℝ) * ((2 : ℕ) : ℝ) * (15129 / 40000)))
      ≤ 0.0498 := by
    have harg : 2 * ((2 : ℕ) : ℝ) * ((2 : ℕ) : ℝ) * ((15129 : ℝ) / 40000)
        = 121032 / 40000 := by norm_num
    rw [harg]
    have h1 : Real.exp (-(121032 / 40000 : ℝ)) ≤ Real.exp (-(3 : ℝ)) :=
      Real.exp_le_exp.mpr (by norm_num)
    linarith [exp_neg_3_le]
  apply le_min (by norm_num)
  refine le_trans ?_ (le_max_right 0 _)
  linarith

/-- Claim C2 counterexample: `ks_pvalue` is not monotonically non-increasing
in `D` for fixed `n1 = n2 = 2`: at `D = 1/1000` the truncated 100-term series
is far from convergence and yields a p-value below `0.0603`, while at
`D = 1/2` the p-value exceeds `0.636`. -/
theorem ks_pvalue_not_monotone :
    ks_pvalue (1 / 1000) 2 2 < ks_pvalue (1 / 2) 2 2 := by
  have h1 := ks_pvalue_milli_upper
  have h2 := ks_pvalue_half_lower
  linarith

/-- Claim C2 amended: for fixed `n1, n2`, monotone comparisons of `ks_pvalue`
in `D` hold whenever one of the compared points is degenerate: for `D ≤ Dp`,
if `D ≤ 0` or `1 ≤ Dp` then `ks_pvalue Dp n1 n2 ≤ ks_pvalue D n1 n2` (the
p-value always lies in `[0, 1]`, is `1` at `D ≤ 0` and `0` at `D ≥ 1`);
between two interior points `0 < D < Dp < 1` monotonicity can fail. -/
theorem ks_pvalue_antitone_of_degenerate (d dp : ℝ) (n1 n2 : ℕ)
    (hdd : d ≤ dp) (hdeg : d ≤ 0 ∨ 1 ≤ dp) :
    ks_pvalue dp n1 n2 ≤ ks_pvalue d n1 n2 := by
  rcases hdeg with h | h
  · have h1 : ks_pvalue d n1 n2 = 1 := by unfold ks_pvalue; rw [if_pos h]
    rw [h1]
    exact ks_pvalue_le_one dp n1 n2
  · have h1 : ks_pvalue dp n1 n2 = 0 := by
      unfold ks_pvalue
      rw [if_neg (by linarith), if_pos h]
    rw [h1]
    exact ks_pvalue_nonneg d n1 n2

/-- Witness for the amended C2 at `D = 0`, `Dp = 1/2`, `n1 = n2 = 1`. -/
theorem ks_pvalue_antitone_of_degenerate_witness :
    ks_pvalue (1 / 2) 1 1 ≤ ks_pvalue 0 1 1 :=
  ks_pvalue_antitone_of_degenerate 0 (1 / 2) 1 1 (by norm_num) (Or.inl le_rfl)

/-- Claim C1 (code bug): evaluating the code at the failing input, comparing
the one-element sample `[1]` with itself yields `ks_statistic = 1`, not the
`0` required by the claim (and by the definition of the KS statistic as the
supremum gap between the two identical empirical CDFs).  On a tie the walk
advances the first pointer and records the gap between the post-step ECDF of
sample 1 and the pre-step ECDF of sample 2, which is `1/n` instead of `0`. -/
theorem ks_statistic_self_singleton : ks_statistic [1] [1] = 1 := by
  norm_num [ks_statistic, ksWalk, List.insertionSort, List.orderedInsert]

/-- Claim C9: an empty sample on either side (including both) yields the
maximal divergence `D = 1`. -/
theorem ks_statistic_empty (s : List ℚ) :
    ks_statistic [] s = 1 ∧ ks_statistic s [] = 1 := by
  constructor
  · simp [ks_statistic]
  · simp [ks_statistic]

/-- Claim C4 counterexample: the deterministic preset does not use `0.001`
across all numeric fields: its `ks_pvalue` field is `0.05`. -/
theorem tolerance_deterministic_ks_pvalue_ne :
    Tolerance.deterministic.ks_pvalue = 0.05
      ∧ Tolerance.deterministic.ks_pvalue ≠ 0.001 := by
  refine ⟨rfl, ?_⟩
  norm_num [Tolerance.deterministic]

/-- Claim C4 amended: the deterministic preset uses `0.001` for the mean,
std, percentiles and ci_bounds fields, and keeps `ks_pvalue` at `0.05` (the
minimum acceptable p-value, unchanged from the default). -/
theorem tolerance_deterministic_fields :
    Tolerance.deterministic.mean = 0.001 ∧ Tolerance.deterministic.std = 0.001
      ∧ Tolerance.deterministic.percentiles = 0.001
      ∧ Tolerance.deterministic.ks_pvalue = 0.05
      ∧ Tolerance.deterministic.ci_bounds = 0.001 :=
  ⟨rfl, rfl, rfl, rfl, rfl⟩

/-- Claim C5 counterexample: reflexivity of `within_tolerance` fails at
`x = 2 ^ (-53)`, `t = 0`: the expected value is below the epsilon guard, so
the absolute fallback compares `|x| ≤ 0` and returns `false`. -/
theorem within_tolerance_not_refl :
    within_tolerance (1 / 2 ^ 53) (1 / 2 ^ 53) 0 = false := by
  unfold within_tolerance
  have habs : |(1 : ℚ) / 2 ^ 53| = 1 / 2 ^ 53 := abs_of_pos (by norm_num)
  rw [habs, if_pos (by norm_num [epsF64])]
  simp only [decide_eq_false_iff_not, not_le]
  norm_num

/-- Claim C5 amended: `within_tolerance x x t = true` for every finite `x`
and every `t ≥ 0` such that additionally `epsF64 ≤ |x|` or `|x| ≤ t`; the
unrestricted claim fails for `0 < |x| < epsF64` with `t < |x|`. -/
theorem within_tolerance_refl_of (x t : ℚ) (ht : 0 ≤ t)
    (h : epsF64 ≤ |x| ∨ |x| ≤ t) : within_tolerance x x t = true := by
  unfold within_tolerance
  rcases h with h | h
  · rw [if_neg (not_lt.mpr h)]
    simp only [sub_self, abs_zero, zero_div, decide_eq_true_eq]
    exact ht
  · by_cases hlt : |x| < epsF64
    · rw [if_pos hlt]
      simpa using h
    · rw [if_neg hlt]
      simp only [sub_self, abs_zero, zero_div, decide_eq_true_eq]
      exact ht

/-- Witness for the amended C5 at `x = 100`, `t = 0`. -/
theorem within_tolerance_refl_of_witness : within_tolerance 100 100 0 = true :=
  within_tolerance_refl_of 100 0 le_rfl (Or.inl (by norm_num [epsF64]))

/-- Claim C6: `within_tolerance actual expected tolerance` returns true iff
either the expected value is below the epsilon guard and `|actual|` is within
the tolerance absolutely, or the expected value is at least epsilon and the
relative difference `|actual - expected| / |expected|` is within the
tolerance; in particular it returns false whenever `epsF64 ≤ |expected|` and
the relative difference strictly exceeds the tolerance. -/
theorem within_tolerance_iff (actual expected tolerance : ℚ) :
    within_tolerance actual expected tolerance = true
      ↔ ((|expected| < epsF64 ∧ |actual| ≤ tolerance)
        ∨ (epsF64 ≤ |expected| ∧ |actual - expected| / |expected| ≤ tolerance)) := by
  unfold within_tolerance
  split_ifs with h
  · simp only [decide_eq_true_eq]
    exact ⟨fun habs => Or.inl ⟨h, habs⟩,
      fun hc => hc.elim (fun hp => hp.2) (fun hp => absurd hp.1 (not_le.mpr h))⟩
  · simp only [decide_eq_true_eq]
    push_neg at h
    exact ⟨fun hrel => Or.inr ⟨h, hrel⟩,
      fun hc => hc.elim (fun hp => absurd hp.1 (not_lt.mpr h)) (fun hp => hp.2)⟩

lemma comparePercentiles_none (name : String) (forge r : ForgeStats)
    (effTol absTol : ℚ) :
    ∀ keys : List String,
      (∀ k ∈ keys,
        match forge.percentiles.lookup k, r.percentiles.lookup k with
        | some fv, some rv => pctFailCond effTol absTol fv rv = false
        | _, _ => True) →
      comparePercentiles name forge r effTol absTol keys = none := by
  intro keys
  induction keys with
  | nil => intro _; rfl
  | cons k rest ih =>
    intro h
    have hk := h k (List.mem_cons_self k rest)
    have hrest := ih fun x hx => h x (List.mem_cons_of_mem _ hx)
    simp only [comparePercentiles]
    rcases hf : forge.percentiles.lookup k with _ | fv
    · simpa [hf] using hrest
    · rcases hr : r.percentiles.lookup k with _ | rv
      · simpa [hf, hr] using hrest
      · rw [hf, hr] at hk
        simp only at hk
        simp [hf, hr, hk, hrest]

lemma comparePercentiles_some (name : String) (forge r : ForgeStats)
    (effTol absTol : ℚ) :
    ∀ (keys : List String) (res : TestResult),
      comparePercentiles name forge r effTol absTol keys = some res →
      ∃ k fv rv, k ∈ keys ∧ forge.percentiles.lookup k = some fv
        ∧ r.percentiles.lookup k = some rv
        ∧ pctFailCond effTol absTol fv rv = true
        ∧ res = .fail name (.pctMismatch k fv rv) := by
  intro keys
  induction keys with
  | nil => intro res h; simp [comparePercentiles] at h
  | cons k rest ih =>
    intro res h
    simp only [comparePercentiles] at h
    rcases hf : forge.percentiles.lookup k with _ | fv
    · rw [hf] at h
      simp only at h
      obtain ⟨x, fv, rv, hmem, h1, h2, h3, h4⟩ := ih res h
      exact ⟨x, fv, rv, List.mem_cons_of_mem _ hmem, h1, h2, h3, h4⟩
    · rcases hr : r.percentiles.lookup k with _ | rv
      · rw [hf, hr] at h
        simp only at h
        obtain ⟨x, fv2, rv2, hmem, h1, h2, h3, h4⟩ := ih res h
        exact ⟨x, fv2, rv2, List.mem_cons_of_mem _ hmem, h1, h2, h3, h4⟩
      · rw [hf, hr] at h
        simp only at h
        by_cases hc : pctFailCond effTol absTol fv rv = true
        · rw [if_pos hc] at h
          refine ⟨k, fv, rv, List.mem_cons_self k rest, hf, hr, hc, ?_⟩
          exact (Option.some_injective _ h).symm
        · rw [if_neg hc] at h
          obtain ⟨x, fv2, rv2, hmem, h1, h2, h3, h4⟩ := ih res h
          exact ⟨x, fv2, rv2, List.mem_cons_of_mem _ hmem, h1, h2, h3, h4⟩

/-- Claim C7: in the comparison step, (1) a percentile `Fail` verdict can
arise only for a key among "5", "50", "95" that is present on both sides and
whose pair fails both the relative check against `max tol.percentiles 0.10`
and the absolute check against `0.5 * r.std`; (2) when mean and std agree and
every checked percentile pair present on both sides passes the relative or
the absolute check (keys absent from either side impose no condition), the
verdict is `Pass`; (3) the failure condition is exactly: relative difference
above the effective tolerance AND absolute difference above half the
reference standard deviation, so a pair is accepted iff the relative
difference is within the effective tolerance or the absolute difference is
within half the reference std. -/
theorem compare_percentile_policy (name : String) (forge r : ForgeStats)
    (tol : Tolerance) :
    (∀ k fv rv,
      compare_forge_r_results name forge r tol = .fail name (.pctMismatch k fv rv) →
        (k = "5" ∨ k = "50" ∨ k = "95")
          ∧ forge.percentiles.lookup k = some fv
          ∧ r.percentiles.lookup k = some rv
          ∧ pctFailCond (max tol.percentiles 0.10) (r.std * 0.5) fv rv = true)
    ∧ (within_tolerance forge.mean r.mean tol.mean = true →
      within_tolerance forge.std r.std tol.std = true →
      (∀ k ∈ pctKeys,
        match forge.percentiles.lookup k, r.percentiles.lookup k with
        | some fv, some rv =>
          pctFailCond (max tol.percentiles 0.10) (r.std * 0.5) fv rv = false
        | _, _ => True) →
      compare_forge_r_results name forge r tol = .pass name forge.mean forge.std)
    ∧ (∀ fv rv,
      pctFailCond (max tol.percentiles 0.10) (r.std * 0.5) fv rv = true
        ↔ (max tol.percentiles 0.10
            < (if epsF64 < |rv| then |fv - rv| / |rv| else |fv - rv|)
          ∧ r.std * 0.5 < |fv - rv|)) := by
  refine ⟨?_, ?_, ?_⟩
  · intro k fv rv heq
    unfold compare_forge_r_results at heq
    by_cases hm : within_tolerance forge.mean r.mean tol.mean = true
    · by_cases hs : within_tolerance forge.std r.std tol.std = true
      · simp only [hm, hs, Bool.not_true, Bool.false_eq_true, if_false] at heq
        rcases hcp : comparePercentiles name forge r
            (max tol.percentiles 0.10) (r.std * 0.5) pctKeys with _ | res
        · rw [hcp] at heq
          simp at heq
        · rw [hcp] at heq
          simp only at heq
          obtain ⟨x, fv2, rv2, hmem, h1, h2, h3, h4⟩ :=
            comparePercentiles_some name forge r _ _ pctKeys res hcp
          rw [h4] at heq
          simp only [TestResult.fail.injEq, FailReason.pctMismatch.injEq] at heq
          obtain ⟨-, hkx, hfv, hrv⟩ := heq
          subst hkx; subst hfv; subst hrv
          simp only [pctKeys, List.mem_cons, List.not_mem_nil, or_false] at hmem
          exact ⟨hmem, h1, h2, h3⟩
      · simp only [Bool.not_eq_true] at hs
        simp only [hm, hs, Bool.not_true, Bool.not_false, Bool.false_eq_true,
          if_false, if_true] at heq
        simp at heq
    · simp only [Bool.not_eq_true] at hm
      simp only [hm, Bool.not_false, if_true] at heq
      simp at heq
  · intro hm hs hok
    have hnone := comparePercentiles_none name forge r
      (max tol.percentiles 0.10) (r.std * 0.5) pctKeys hok
    unfold compare_forge_r_results
    simp [hm, hs, hnone]
  · intro fv rv
    simp [pctFailCond, Bool.and_eq_true, decide_eq_true_eq]

/-- Witness for C7, part 2: with matching mean and std and percentile pair
`(105, 100)` whose relative difference `5` percent is within the effective
`10` percent tolerance, the verdict is `Pass`. -/
theorem compare_percentile_policy_witness :
    compare_forge_r_results ("t")
      ⟨100, 15, [("5", 105)]⟩ ⟨100, 15, [("5", 100)]⟩ Tolerance.default
      = .pass ("t") 100 15 := by
  apply (compare_percentile_policy ("t")
    ⟨100, 15, [("5", 105)]⟩ ⟨100, 15, [("5", 100)]⟩ Tolerance.default).2.1
  · norm_num [within_tolerance, epsF64, Tolerance.default]
  · norm_num [within_tolerance, epsF64, Tolerance.default]
  · intro k hk
    fin_cases hk
    · norm_num [pctFailCond, epsF64, Tolerance.default]
    · simp [List.lookup]
    · simp [List.lookup]

/-- Claim C8: (1) a spec with no distribution yields a Skip verdict with the
"not a Monte Carlo test" reason, for every environment, so before and
independently of any external invocation; (2) whenever formula construction
fails with error `e`, the orchestrator yields Skip with reason
"Cannot build formula: e" for every environment — never an Error verdict;
(3) every string whose lowercase form is "exponential" is rejected by formula
construction with a descriptive error; (4) any name whose lowercase form is
none of the six recognised ones is rejected with a descriptive error; (5) a
formula is ever built (no silent default) only for a supported distribution
with all its required parameters present. -/
theorem orchestrator_skip_paths :
    (∀ (test : AnalyticsTestSpec) (env : OrchEnv), test.distribution = none →
      run_monte_carlo_test test env
        = .skip test.name ("No distribution specified (not a Monte Carlo test)"))
    ∧ (∀ (test : AnalyticsTestSpec) (env : OrchEnv) (d e : String),
      test.distribution = some d → build_mc_formula d test.params = .error e →
      run_monte_carlo_test test env = .skip test.name ("Cannot build formula: " ++ e))
    ∧ (∀ (s : String) (p : List (String × ℚ)), toLowerAscii s = "exponential" →
      build_mc_formula s p
        = .error ("Exponential distribution not supported by forge"))
    ∧ (∀ (s : String) (p : List (String × ℚ)),
      toLowerAscii s ≠ "normal" → toLowerAscii s ≠ "uniform" → toLowerAscii s ≠ "lognormal" →
      toLowerAscii s ≠ "triangular" → toLowerAscii s ≠ "pert" → toLowerAscii s ≠ "exponential" →
      build_mc_formula s p
        = .error ("Unsupported distribution: " ++ toLowerAscii s))
    ∧ (∀ (s : String) (p : List (String × ℚ)),
      (∃ f, build_mc_formula s p = .ok f)
        → ((toLowerAscii s = "normal"
              ∧ (p.lookup ("mean")).isSome = true ∧ (p.lookup ("sd")).isSome = true)
          ∨ (toLowerAscii s = "uniform"
              ∧ (p.lookup ("min")).isSome = true ∧ (p.lookup ("max")).isSome = true)
          ∨ (toLowerAscii s = "lognormal"
              ∧ (p.lookup ("meanlog")).isSome = true
              ∧ (p.lookup ("sdlog")).isSome = true)
          ∨ (toLowerAscii s = "triangular"
              ∧ (p.lookup ("min")).isSome = true ∧ (p.lookup ("mode")).isSome = true
              ∧ (p.lookup ("max")).isSome = true)
          ∨ (toLowerAscii s = "pert"
              ∧ (p.lookup ("min")).isSome = true ∧ (p.lookup ("mode")).isSome = true
              ∧ (p.lookup ("max")).isSome = true))) := by
  refine ⟨?_, ?_, ?_, ?_, ?_⟩
  · intro test env h
    simp [run_monte_carlo_test, h]
  · intro test env d e hd he
    simp [run_monte_carlo_test, hd, he]
  · intro s p h
    simp [build_mc_formula, h]
  · intro s p h1 h2 h3 h4 h5 h6
    unfold build_mc_formula
    split
    · simp_all
    · simp_all
    · simp_all
    · simp_all
    · simp_all
    · simp_all
    · simp_all
  · intro s p hok
    obtain ⟨f, hf⟩ := hok
    unfold build_mc_formula at hf
    split at hf
    · left
      refine ⟨by assumption, ?_, ?_⟩ <;>
        · rcases hm : p.lookup ("mean") with _ | m <;>
            rcases hsd : p.lookup ("sd") with _ | sd <;>
            simp_all
    · right; left
      refine ⟨by assumption, ?_, ?_⟩ <;>
        · rcases hm : p.lookup ("min") with _ | lo <;>
            rcases hsd : p.lookup ("max") with _ | hi <;>
            simp_all
    · right; right; left
      refine ⟨by assumption, ?_, ?_⟩ <;>
        · rcases hm : p.lookup ("meanlog") with _ | ml <;>
            rcases hsd : p.lookup ("sdlog") with _ | sl <;>
            simp_all
    · right; right; right; left
      refine ⟨by assumption, ?_, ?_, ?_⟩ <;>
        · rcases hm : p.lookup ("min") with _ | lo <;>
            rcases hmo : p.lookup ("mode") with _ | mo <;>
            rcases hma : p.lookup ("max") with _ | hi <;>
            simp_all
    · right; right; right; right
      refine ⟨by assumption, ?_, ?_, ?_⟩ <;>
        · rcases hm : p.lookup ("min") with _ | lo <;>
            rcases hmo : p.lookup ("mode") with _ | mo <;>
            rcases hma : p.lookup ("max") with _ | hi <;>
            simp_all
    · simp_all
    · simp_all

/-- Witness for C8, part 1: a spec without a distribution is skipped with the
"not a Monte Carlo test" reason under an arbitrary concrete environment. -/
theorem orchestrator_skip_paths_witness :
    run_monte_carlo_test
      ⟨("t"), none, [], 42, 10000, none, none⟩
      ⟨.ok (), .ok (), .ok ⟨0, 0, []⟩, .ok ⟨true, none, none⟩⟩
      = .skip ("t") ("No distribution specified (not a Monte Carlo test)") :=
  orchestrator_skip_paths.1 _ _ rfl

/-- Claim C10: `build_mc_formula` matches the distribution name through
`to_lowercase`: every string whose lowercase form is "normal", "uniform",
"lognormal", "triangular" or "pert" produces the corresponding formula when
the required parameters are present, every string whose lowercase form is
"exponential" is rejected with an error, and any name whose lowercase form is
none of the five supported ones is rejected with an error — so acceptance or
rejection never depends on the casing of the distribution field. -/
theorem build_mc_formula_case_insensitive :
    (∀ (s : String) (p : List (String × ℚ)) (m sd : ℚ),
      toLowerAscii s = "normal" → p.lookup ("mean") = some m →
      p.lookup ("sd") = some sd → build_mc_formula s p = .ok (.normal m sd))
    ∧ (∀ (s : String) (p : List (String × ℚ)) (lo hi : ℚ),
      toLowerAscii s = "uniform" → p.lookup ("min") = some lo →
      p.lookup ("max") = some hi → build_mc_formula s p = .ok (.uniform lo hi))
    ∧ (∀ (s : String) (p : List (String × ℚ)) (ml sl : ℚ),
      toLowerAscii s = "lognormal" → p.lookup ("meanlog") = some ml →
      p.lookup ("sdlog") = some sl →
      build_mc_formula s p = .ok (.lognormal (Real.exp (ml + sl * sl / 2))
        (Real.sqrt ((Real.exp ((sl : ℝ) * sl) - 1)
          * Real.exp (2 * ml + sl * sl)))))
    ∧ (∀ (s : String) (p : List (String × ℚ)) (lo mo hi : ℚ),
      toLowerAscii s = "triangular" → p.lookup ("min") = some lo →
      p.lookup ("mode") = some mo → p.lookup ("max") = some hi →
      build_mc_formula s p = .ok (.triangular lo mo hi))
    ∧ (∀ (s : String) (p : List (String × ℚ)) (lo mo hi : ℚ),
      toLowerAscii s = "pert" → p.lookup ("min") = some lo →
      p.lookup ("mode") = some mo → p.lookup ("max") = some hi →
      build_mc_formula s p = .ok (.pert lo mo hi))
    ∧ (∀ (s : String) (p : List (String × ℚ)), toLowerAscii s = "exponential" →
      ∃ e, build_mc_formula s p = .error e)
    ∧ (∀ (s : String) (p : List (String × ℚ)),
      toLowerAscii s ∉ (["normal", "uniform", "lognormal", "triangular", "pert"]
        : List String) →
      ∃ e, build_mc_formula s p = .error e) := by
  refine ⟨?_, ?_, ?_, ?_, ?_, ?_, ?_⟩
  · intro s p m sd h hm hsd
    simp [build_mc_formula, h, hm, hsd]
  · intro s p lo hi h hm hsd
    simp [build_mc_formula, h, hm, hsd]
  · intro s p ml sl h hm hsd
    simp [build_mc_formula, h, hm, hsd]
  · intro s p lo mo hi h hm hmo hma
    simp [build_mc_formula, h, hm, hmo, hma]
  · intro s p lo mo hi h hm hmo hma
    simp [build_mc_formula, h, hm, hmo, hma]
  · intro s p h
    exact ⟨("Exponential distribution not supported by forge"),
      by simp [build_mc_formula, h]⟩
  · intro s p h
    simp only [List.mem_cons, List.not_mem_nil, or_false, not_or] at h
    obtain ⟨h1, h2, h3, h4, h5⟩ := h
    by_cases h6 : toLowerAscii s = "exponential"
    · exact ⟨("Exponential distribution not supported by forge"),
        by simp [build_mc_formula, h6]⟩
    · refine ⟨("Unsupported distribution: " ++ toLowerAscii s), ?_⟩
      unfold build_mc_formula
      split
      · simp_all
      · simp_all
      · simp_all
      · simp_all
      · simp_all
      · simp_all
      · simp_all

/-- Witness for C10: an upper-case "NORMAL" spec with its parameters builds
the normal formula, and an upper-case "EXPONENTIAL" is rejected. -/
theorem build_mc_formula_case_insensitive_witness :
    build_mc_formula ("NORMAL") [("mean", 100), ("sd", 15)]
        = .ok (.normal 100 15)
      ∧ ∃ e, build_mc_formula ("EXPONENTIAL")
        ([] : List (String × ℚ)) = .error e := by
  constructor
  · exact build_mc_formula_case_insensitive.1 ("NORMAL") _ 100 15 (by decide)
      rfl rfl
  · exact build_mc_formula_case_insensitive.2.2.2.2.2.1 ("EXPONENTIAL") _
      (by decide)
